import Mathlib

set_option maxHeartbeats 2000000
set_option maxRecDepth 100000

/-! Shallow embedding of the device-inspection WebSocket protocol adapter
    (session transport, turn accumulator, report extractor, subscriber
    fan-out) together with the pieces of JavaScript runtime semantics the
    source relies on: JSON.parse / JSON.stringify, truthiness, property
    access, string coercion, and the two regular expressions used by the
    report extractor. -/

/-- JSON value as produced by JavaScript JSON.parse.  Numbers are kept as
exact rationals; every numeric literal appearing in this development is a
small integer, on which rationals and IEEE doubles agree. -/
inductive Json where
  | null : Json
  | bool (b : Bool) : Json
  | num (q : Rat) : Json
  | str (s : String) : Json
  | arr (items : List Json) : Json
  | obj (fields : List (String × Json)) : Json

/-- Abbreviation for an integer JSON number, written so that the parser
output and hand-written expected values are definitionally equal. -/
def jNat (n : Nat) : Json := Json.num ((n : Nat) : Rat)

/-- JSON insignificant whitespace (the only four characters JSON.parse
skips between tokens). -/
def isJsonWs (c : Char) : Bool := c = ' ' || c = '\t' || c = '\n' || c = '\r'

def skipJsonWs (l : List Char) : List Char := l.dropWhile isJsonWs

def isDigit (c : Char) : Bool := '0' ≤ c && c ≤ '9'

def digitVal (c : Char) : Nat := c.toNat - '0'.toNat

def hexVal (c : Char) : Option Nat :=
  if '0' ≤ c ∧ c ≤ '9' then some (c.toNat - '0'.toNat)
  else if 'a' ≤ c ∧ c ≤ 'f' then some (c.toNat - 'a'.toNat + 10)
  else if 'A' ≤ c ∧ c ≤ 'F' then some (c.toNat - 'A'.toNat + 10)
  else none

/-- Escape characters accepted by JSON.parse after a backslash (besides
the six-character \uXXXX form, handled separately). -/
def escChar (e : Char) : Option Char :=
  if e = '"' then some '"'
  else if e = '\\' then some '\\'
  else if e = '/' then some '/'
  else if e = 'b' then some (Char.ofNat 8)
  else if e = 'f' then some (Char.ofNat 12)
  else if e = 'n' then some '\n'
  else if e = 'r' then some '\r'
  else if e = 't' then some '\t'
  else none

/-- Body of a JSON string literal: consumes characters after the opening
quote up to and including the closing quote.  Unescaped control
characters below U+0020 are a syntax error, as in JSON.parse. -/
def pStrChars : List Char → Option (List Char × List Char)
  | [] => none
  | '"' :: cs => some ([], cs)
  | '\\' :: 'u' :: h1 :: h2 :: h3 :: h4 :: cs => do
      let a ← hexVal h1
      let b ← hexVal h2
      let c ← hexVal h3
      let d ← hexVal h4
      let (out, rest) ← pStrChars cs
      pure (Char.ofNat (((a * 16 + b) * 16 + c) * 16 + d) :: out, rest)
  | '\\' :: e :: cs => do
      let c ← escChar e
      let (out, rest) ← pStrChars cs
      pure (c :: out, rest)
  | c :: cs =>
      if c.toNat < 32 then none
      else do
        let (out, rest) ← pStrChars cs
        pure (c :: out, rest)

/-- Consume a maximal run of decimal digits, returning the accumulated
value, the number of digits consumed, and the rest of the input. -/
def digitsAcc (acc : Nat) : List Char → Nat × Nat × List Char
  | [] => (acc, 0, [])
  | c :: cs =>
    if isDigit c then
      let r := digitsAcc (acc * 10 + digitVal c) cs
      (r.1, r.2.1 + 1, r.2.2)
    else (acc, 0, c :: cs)

/-- Optional fraction part of a JSON number: a dot followed by at least
one digit, or nothing. -/
def fracPart (l : List Char) : Option (Nat × Nat × List Char) :=
  match l with
  | '.' :: cs =>
    match digitsAcc 0 cs with
    | (_, 0, _) => none
    | (v, n, rest) => some (v, n, rest)
  | _ => some (0, 0, l)

/-- Optional exponent part of a JSON number. -/
def expPart (l : List Char) : Option (Int × List Char) :=
  match l with
  | c :: cs =>
    if c = 'e' ∨ c = 'E' then
      let sgn : Int × List Char :=
        match cs with
        | d :: ds => if d = '+' then (1, ds) else if d = '-' then (-1, ds) else (1, cs)
        | [] => (1, cs)
      match digitsAcc 0 sgn.2 with
      | (_, 0, _) => none
      | (v, _, rest) => some (sgn.1 * v, rest)
    else some (0, l)
  | [] => some (0, [])

/-- JSON number, per the JSON grammar (optional minus, integer part with
no superfluous leading zero, optional fraction, optional exponent). -/
def pNumber (l : List Char) : Option (Rat × List Char) :=
  let st : Bool × List Char :=
    match l with
    | c :: cs => if c = '-' then (true, cs) else (false, l)
    | [] => (false, l)
  match st.2 with
  | [] => none
  | c :: cs =>
    if isDigit c then
      let ipr : Nat × Nat × List Char :=
        if c = '0' then (0, 1, cs) else digitsAcc 0 (c :: cs)
      let badZero : Bool := c = '0' && (match cs with | d :: _ => isDigit d | [] => false)
      if badZero then none
      else
        match fracPart ipr.2.2 with
        | none => none
        | some (fv, fn, l3) =>
          match expPart l3 with
          | none => none
          | some (ev, l4) =>
            let q : Rat :=
              if fn = 0 ∧ ev = 0 ∧ st.1 = false then (ipr.1 : Rat)
              else (if st.1 then (-1 : Rat) else 1) *
                   ((ipr.1 : Rat) + (fv : Rat) / ((10 : Rat) ^ fn)) * ((10 : Rat) ^ ev)
            some (q, l4)
    else none

/-- Insert a member into a JSON object the way JavaScript does while
parsing: a duplicate key keeps its original position but takes the new
value. -/
def objInsert : List (String × Json) → String → Json → List (String × Json)
  | [], k, v => [(k, v)]
  | (k0, v0) :: fs, k, v =>
    if k0 = k then (k0, v) :: fs else (k0, v0) :: objInsert fs k v

def lookupField : List (String × Json) → String → Option Json
  | [], _ => none
  | (k0, v0) :: fs, k => if k0 = k then some v0 else lookupField fs k

mutual

/-- Recursive-descent JSON value parser.  The fuel argument only bounds
recursion depth; callers pass more fuel than any input can consume (each
recursive call follows the consumption of at least one input character,
and the entry point supplies more than twice the input length), so fuel
exhaustion never fires before a genuine syntax error. -/
def pVal : Nat → List Char → Option (Json × List Char)
  | 0, _ => none
  | fuel + 1, l =>
    match skipJsonWs l with
    | [] => none
    | c :: cs =>
      if c = '\x7b' then
        match skipJsonWs cs with
        | c2 :: cs2 =>
          if c2 = '\x7d' then some (.obj [], cs2) else pObjFields fuel [] (c2 :: cs2)
        | [] => none
      else if c = '[' then
        match skipJsonWs cs with
        | c2 :: cs2 =>
          if c2 = ']' then some (.arr [], cs2) else pArrItems fuel [] (c2 :: cs2)
        | [] => none
      else if c = '"' then
        match pStrChars cs with
        | some (out, rest) => some (.str ⟨out⟩, rest)
        | none => none
      else
        match c :: cs with
        | 't' :: 'r' :: 'u' :: 'e' :: r => some (.bool true, r)
        | 'f' :: 'a' :: 'l' :: 's' :: 'e' :: r => some (.bool false, r)
        | 'n' :: 'u' :: 'l' :: 'l' :: r => some (.null, r)
        | l2 =>
          if c = '-' ∨ isDigit c then
            match pNumber l2 with
            | some (q, rest) => some (.num q, rest)
            | none => none
          else none

/-- Members of a JSON object, starting at a key (whitespace already
skipped, first member known not to be a closing brace). -/
def pObjFields : Nat → List (String × Json) → List Char → Option (Json × List Char)
  | 0, _, _ => none
  | fuel + 1, acc, l =>
    match l with
    | [] => none
    | c :: cs =>
      if c = '"' then
        match pStrChars cs with
        | none => none
        | some (kout, r1) =>
          match skipJsonWs r1 with
          | [] => none
          | c2 :: r2 =>
            if c2 = ':' then
              match pVal fuel r2 with
              | none => none
              | some (v, r3) =>
                let acc2 := objInsert acc ⟨kout⟩ v
                match skipJsonWs r3 with
                | [] => none
                | c3 :: r4 =>
                  if c3 = ',' then pObjFields fuel acc2 (skipJsonWs r4)
                  else if c3 = '\x7d' then some (.obj acc2, r4)
                  else none
            else none
      else none

/-- Items of a JSON array (first item known not to be a closing
bracket). -/
def pArrItems : Nat → List Json → List Char → Option (Json × List Char)
  | 0, _, _ => none
  | fuel + 1, acc, l =>
    match pVal fuel l with
    | none => none
    | some (v, r1) =>
      match skipJsonWs r1 with
      | [] => none
      | c :: r2 =>
        if c = ',' then pArrItems fuel (acc ++ [v]) r2
        else if c = ']' then some (.arr (acc ++ [v]), r2)
        else none

end

/-- JSON.parse on a character list: one value, then only trailing
whitespace. -/
def jsonParseList (l : List Char) : Option Json :=
  match pVal (2 * l.length + 4) l with
  | some (v, rest) => if skipJsonWs rest = [] then some v else none
  | none => none

/-- JSON.parse: returns the decoded value, or none where JavaScript
would throw a SyntaxError. -/
def jsonParse (s : String) : Option Json := jsonParseList s.data

/-- JavaScript truthiness of a JSON value (NaN cannot arise from
JSON.parse, and undefined is represented as a missing Option). -/
def truthy : Json → Bool
  | .null => false
  | .bool b => b
  | .num q => if q = 0 then false else true
  | .str s => if s = "" then false else true
  | .arr _ => true
  | .obj _ => true

/-- Truthiness of a possibly-undefined value. -/
def truthyO : Option Json → Bool
  | none => false
  | some j => truthy j

/-- JavaScript property read `receiver.key`.  Reading a property of null
throws a TypeError (outer none); reading a property of a primitive or a
missing key yields undefined (some none). -/
def getProp : Json → String → Option (Option Json)
  | .null, _ => none
  | .obj fs, k => some (lookupField fs k)
  | _, _ => some none

/-- Property read on a receiver already known not to be null:
undefined for primitives and missing keys. -/
def jsProp : Json → String → Option Json
  | .obj fs, k => lookupField fs k
  | _, _ => none

/-- Optional chaining `receiver?.key`: undefined when the receiver is
undefined or null, otherwise a plain property read. -/
def optChainProp (o : Option Json) (k : String) : Option Json :=
  match o with
  | none => none
  | some .null => none
  | some j => jsProp j k

/-- JavaScript for..of iteration: arrays iterate items, strings iterate
single-character strings, every other truthy value is not iterable and
throws a TypeError (none). -/
def jsIter : Json → Option (List Json)
  | .arr items => some items
  | .str s => some (s.data.map (fun c => Json.str (String.singleton c)))
  | _ => none

/-- Number-to-string for the string coercions in the source.  Integral
values print exactly as JavaScript does; a non-integral rational is
printed as a fraction (JavaScript prints a decimal expansion, but no
claim exercises a non-integral number). -/
def ratToString (q : Rat) : String :=
  if q.den = 1 then toString q.num
  else toString q.num ++ "/" ++ toString q.den

mutual

/-- Size of a JSON value, used only to supply fuel. -/
def jsonSize : Json → Nat
  | .null => 1
  | .bool _ => 1
  | .num _ => 1
  | .str _ => 1
  | .arr items => 1 + jsonListSize items
  | .obj fs => 1 + jsonFieldsSize fs

def jsonListSize : List Json → Nat
  | [] => 1
  | j :: js => 1 + jsonSize j + jsonListSize js

def jsonFieldsSize : List (String × Json) → Nat
  | [] => 1
  | (_, v) :: fs => 1 + jsonSize v + jsonFieldsSize fs

end

mutual

/-- JavaScript ToString on a JSON value, as used by `+=` accumulation
and template-literal interpolation in the source.  The fuel argument
only keeps the recursion through nested arrays structural; the entry
point supplies more fuel than the recursion can consume. -/
def jsToStringF : Json → Nat → String
  | .null, _ => "null"
  | .bool b, _ => if b then "true" else "false"
  | .num q, _ => ratToString q
  | .str s, _ => s
  | .arr _, 0 => ""
  | .arr items, fuel + 1 => jsArrJoinF items fuel
  | .obj _, _ => "[object Object]"

/-- Array.prototype.toString: elements joined with commas. -/
def jsArrJoinF : List Json → Nat → String
  | _, 0 => ""
  | [], _ + 1 => ""
  | [x], fuel + 1 => jsElemToStringF x fuel
  | x :: y :: xs, fuel + 1 => jsElemToStringF x fuel ++ "," ++ jsArrJoinF (y :: xs) fuel

/-- Array join renders null elements as the empty string. -/
def jsElemToStringF : Json → Nat → String
  | _, 0 => ""
  | .null, _ + 1 => ""
  | j, fuel + 1 => jsToStringF j fuel

end

/-- JavaScript ToString with enough fuel for the whole value (each
recursion step burns one unit of fuel, at most three steps serve each
node, so triple the size is ample). -/
def jsToString (j : Json) : String := jsToStringF j (3 * jsonSize j + 3)

/-- Two lowercase hex digits for a byte value below 0x20. -/
def hexDigit (n : Nat) : Char :=
  if n < 10 then Char.ofNat ('0'.toNat + n) else Char.ofNat ('a'.toNat + n - 10)

/-- Escape one character the way JSON.stringify quotes string data. -/
def jsonEscape (c : Char) : String :=
  if c = '"' then "\\\""
  else if c = '\\' then "\\\\"
  else if c = Char.ofNat 8 then "\\b"
  else if c = '\t' then "\\t"
  else if c = '\n' then "\\n"
  else if c = Char.ofNat 12 then "\\f"
  else if c = '\r' then "\\r"
  else if c.toNat < 32 then
    String.mk ['\\', 'u', '0', '0', hexDigit (c.toNat / 16), hexDigit (c.toNat % 16)]
  else String.singleton c

def jsonQuote (s : String) : String :=
  "\"" ++ String.join (s.data.map jsonEscape) ++ "\""

mutual

/-- JSON.stringify, used by the source only to render diagnostic error
payloads into a handler-visible string; fuelled like jsToStringF. -/
def jsonStringifyF : Json → Nat → String
  | .null, _ => "null"
  | .bool b, _ => if b then "true" else "false"
  | .num q, _ => ratToString q
  | .str s, _ => jsonQuote s
  | .arr _, 0 => ""
  | .arr items, fuel + 1 => "[" ++ stringifyItemsF items fuel ++ "]"
  | .obj _, 0 => ""
  | .obj fs, fuel + 1 => "\x7b" ++ stringifyFieldsF fs fuel ++ "\x7d"

def stringifyItemsF : List Json → Nat → String
  | _, 0 => ""
  | [], _ + 1 => ""
  | [x], fuel + 1 => jsonStringifyF x fuel
  | x :: y :: xs, fuel + 1 => jsonStringifyF x fuel ++ "," ++ stringifyItemsF (y :: xs) fuel

def stringifyFieldsF : List (String × Json) → Nat → String
  | _, 0 => ""
  | [], _ + 1 => ""
  | [(k, v)], fuel + 1 => jsonQuote k ++ ":" ++ jsonStringifyF v fuel
  | (k, v) :: f :: fs, fuel + 1 =>
    jsonQuote k ++ ":" ++ jsonStringifyF v fuel ++ "," ++ stringifyFieldsF (f :: fs) fuel

end

/-- JSON.stringify with ample fuel. -/
def jsonStringify (j : Json) : String := jsonStringifyF j (3 * jsonSize j + 3)

/-- JavaScript whitespace, as matched by the regex class backslash-s and
stripped by String.trim: ASCII whitespace plus the Unicode space
characters and line separators. -/
def isJsWs (c : Char) : Bool :=
  c = ' ' || c = '\t' || c = '\n' || c = '\r' ||
  c.toNat = 11 || c.toNat = 12 || c.toNat = 0xa0 || c.toNat = 0x1680 ||
  (0x2000 ≤ c.toNat && c.toNat ≤ 0x200a) || c.toNat = 0x2028 || c.toNat = 0x2029 ||
  c.toNat = 0x202f || c.toNat = 0x205f || c.toNat = 0x3000 || c.toNat = 0xfeff

def backtick : Char := Char.ofNat 96

/-- Remainder of the input after the leftmost occurrence of three
backticks (the opening fence of the code-block regex). -/
def afterFence : List Char → Option (List Char)
  | c1 :: c2 :: c3 :: rest =>
    if c1 = backtick ∧ c2 = backtick ∧ c3 = backtick then some rest
    else afterFence (c2 :: c3 :: rest)
  | _ => none

/-- Characters before the next occurrence of three backticks (the lazy
capture group of the code-block regex, bounded by the closing fence);
none when no closing fence exists. -/
def takeUntilFence : List Char → Option (List Char)
  | c1 :: c2 :: c3 :: rest =>
    if c1 = backtick ∧ c2 = backtick ∧ c3 = backtick then some []
    else (takeUntilFence (c2 :: c3 :: rest)).map (c1 :: ·)
  | _ => none

/-- Does the list start with the literal language tag "json"? -/
def startsJsonTag : List Char → Bool
  | 'j' :: 's' :: 'o' :: 'n' :: _ => true
  | _ => false

/-- The capture group of the source regex matching a fenced code block:
three backticks, an optional literal "json", greedy whitespace, then a
lazy body up to the next three backticks.  A first opening fence with no
closing fence cannot be rescued by restarting later (any later full
match would have supplied the missing closing fence), so the leftmost
fence decides the overall match. -/
def extractFence (l : List Char) : Option (List Char) :=
  match afterFence l with
  | none => none
  | some r =>
    let r1 := if startsJsonTag r then r.drop 4 else r
    takeUntilFence (r1.dropWhile isJsWs)

/-- Drop the trailing run of characters satisfying p. -/
def dropWhileEnd (p : Char → Bool) : List Char → List Char
  | [] => []
  | c :: cs =>
    let r := dropWhileEnd p cs
    if r.isEmpty && p c then [] else c :: r

/-- String.trim on a character list. -/
def trimChars (l : List Char) : List Char :=
  dropWhileEnd isJsWs (l.dropWhile isJsWs)

def openBrace : Char := '\x7b'

def closeBrace : Char := '\x7d'

/-- Suffix of the input starting at its first opening brace. -/
def afterFirstBrace : List Char → Option (List Char)
  | [] => none
  | c :: cs => if c = openBrace then some (c :: cs) else afterFirstBrace cs

/-- Truncate after the last closing brace; none when no closing brace
remains (the greedy tail of the brace regex). -/
def truncAtLastClose (l : List Char) : Option (List Char) :=
  let w := l.reverse.dropWhile (fun c => !(c = closeBrace))
  if w.isEmpty then none else some w.reverse

/-- The source regex extracting a greedy brace-delimited span: from the
first opening brace through the last closing brace after it. -/
def braceCandidate (l : List Char) : Option (List Char) :=
  match afterFirstBrace l with
  | none => none
  | some r => truncAtLastClose r

/-- Stage one of parseDefectReport: the fenced content (trimmed) when a
fenced code block is present, otherwise the whole text. -/
def cleanTextOf (text : String) : List Char :=
  match extractFence text.data with
  | some c => trimChars c
  | none => text.data

/-- Stage two of parseDefectReport: the brace-delimited candidate inside
the clean text. -/
def candidateOf (text : String) : Option (List Char) :=
  braceCandidate (cleanTextOf text)

/-- Timestamp step of parseDefectReport.  The source reads
report.timestamp with a falsiness test and assigns the current time when
falsy.  The decoded candidate is always an object (a JSON text delimited
by braces decodes to an object or fails); were it a primitive, the
strict-mode property assignment would throw and the catch block would
emit nothing, hence the none fallback. -/
def emitAfterTs (report : Json) (now : String) : Option Json :=
  match report with
  | .obj fs =>
    if truthyO (lookupField fs "timestamp") then some (.obj fs)
    else some (.obj (objInsert fs "timestamp" (.str now)))
  | _ => none

/-- GeminiLiveService.parseDefectReport: strip an optional fenced code
block, take the greedy brace-delimited span, JSON.parse it, fill a falsy
timestamp with the current time, and return the report handed to defect
handlers; none when any stage declines (the source then only logs). -/
def parseDefectReport (text now : String) : Option Json :=
  match candidateOf text with
  | none => none
  | some cand =>
    match jsonParseList cand with
    | none => none
    | some report => emitAfterTs report now

inductive ConnectionStatus where
  | disconnected : ConnectionStatus
  | connecting : ConnectionStatus
  | connected : ConnectionStatus
  | error : ConnectionStatus
deriving DecidableEq

/-- Constructor argument of the service; model and systemInstruction are
optional, with absence modelled as none. -/
structure GeminiLiveConfig where
  apiKey : String
  model : Option String
  systemInstruction : Option String
deriving DecidableEq

/-- Configuration after the constructor merges defaults with the caller
config (spread semantics: caller fields win when present). -/
structure ResolvedConfig where
  apiKey : String
  model : String
  systemInstruction : String
deriving DecidableEq

/-- The system-instruction default baked into the service module. -/
def DEVICE_INSPECTION_PROMPT : String :=
  "You are an expert device quality inspector specializing in mobile phone condition assessment.\nAnalyze the device shown in the video frame and provide a detailed inspection report.\n\nFor each frame, evaluate:\n\n1. **Screen Condition**\n   - Cracks, chips, or fractures\n   - Scratches (light, deep, or gouges)\n   - Dead pixels or display anomalies\n   - Screen burn-in or discoloration\n\n2. **Body/Housing Condition**\n   - Dents, dings, or deformations\n   - Scratches on back panel and frame\n   - Paint/coating wear or peeling\n   - Corner and edge damage\n\n3. **Functional Components**\n   - Camera lens condition (scratches, cracks, debris)\n   - Button condition and alignment\n   - Port condition (charging port, headphone jack)\n   - Speaker/microphone grille condition\n\n4. **Overall Assessment**\n   - Device model identification (if visible)\n   - Estimated condition grade (1-10 scale)\n   - Category: Excellent (9-10), Good (7-8), Fair (5-6), Poor (3-4), Damaged (1-2)\n\nReturn your findings as a JSON object with this structure:\n\x7b\n  \"device_type\": \"string - identified device model or \x27Unknown\x27\",\n  \"condition_score\": number (1-10),\n  \"overall_condition\": \"Excellent|Good|Fair|Poor|Damaged\",\n  \"defects\": [\n    \x7b\n      \"type\": \"Screen Crack|Scratch|Dent|etc.\",\n      \"location\": \"where on device\",\n      \"severity\": \"Minor|Moderate|Severe\",\n      \"description\": \"detailed description\",\n      \"dimensions_mm\": \"estimated size if applicable\"\n    \x7d\n  ],\n  \"recommendations\": [\"array of repair/action recommendations\"],\n  \"timestamp\": \"ISO timestamp\"\n\x7d\n\nIf no device is clearly visible, respond with:\n\x7b\n  \"device_type\": \"Not Detected\",\n  \"condition_score\": 0,\n  \"overall_condition\": \"Unknown\",\n  \"defects\": [],\n  \"recommendations\": [\"Please position the device clearly in front of the camera\"],\n  \"timestamp\": \"ISO timestamp\"\n\x7d\n\nBe thorough but concise. Focus on actual visible defects, not speculative issues."

/-- GeminiLiveService constructor: merge the defaults with the caller
configuration. -/
def resolveConfig (c : GeminiLiveConfig) : ResolvedConfig :=
  { apiKey := c.apiKey
    model := c.model.getD "gemini-2.0-flash-exp"
    systemInstruction := c.systemInstruction.getD DEVICE_INSPECTION_PROMPT }

/-- Outbound wire envelope, mirroring the JSON messages the source sends
(the fixed generation parameters of the setup envelope are compile-time
constants and carry no state). -/
inductive OutMsg where
  | setup (modelPath : String) (systemInstruction : String)
  | videoFrame (mimeType : String) (data : String)
  | imageTurn (mimeType : String) (data : String) (prompt : String)
  | textTurn (text : String)
deriving DecidableEq

/-- Observable effect of one synchronous step of the service: a status
broadcast to every status handler, a socket send or close, a scheduled
reconnect timer, a raw fragment forwarded to every message handler, or a
parsed report delivered to every defect handler. -/
inductive SvcAction where
  | statusChanged (s : ConnectionStatus)
  | wsSend (m : OutMsg)
  | socketClose
  | scheduleReconnect (delayMs : Nat)
  | forwardText (fragment : Json)
  | emitReport (report : Json)

/-- Mutable fields of a GeminiLiveService instance.  The ws field is
none when this.ws is null, some b when a socket object is referenced
with b true exactly when its readyState is OPEN. -/
structure SvcState where
  config : ResolvedConfig
  ws : Option Bool
  reconnectAttempts : Nat
  currentStatus : ConnectionStatus
  accumulatedResponse : String
deriving DecidableEq

def maxReconnectAttempts : Nat := 3

/-- new GeminiLiveService(config). -/
def mkGeminiLiveService (config : GeminiLiveConfig) : SvcState :=
  { config := resolveConfig config
    ws := none
    reconnectAttempts := 0
    currentStatus := .disconnected
    accumulatedResponse := "" }

/-- setStatus: record the status and broadcast it synchronously to every
status handler in registration order. -/
def setStatus (s : SvcState) (st : ConnectionStatus) : SvcState × List SvcAction :=
  ({ s with currentStatus := st }, [.statusChanged st])

/-- sendSetupMessage: guarded on an open socket; sends the one-time
handshake envelope. -/
def sendSetupMessage (s : SvcState) : List SvcAction :=
  if s.ws = some true then
    [.wsSend (.setup ("models/" ++ s.config.model) s.config.systemInstruction)]
  else []

/-- Synchronous prefix of connect(): a no-op on an already-open socket,
otherwise transition to connecting and allocate a fresh socket (in the
CONNECTING readyState). -/
def connectCall (s : SvcState) : SvcState × List SvcAction :=
  if s.ws = some true then (s, [])
  else
    let (s1, acts) := setStatus s .connecting
    ({ s1 with ws := some false }, acts)

/-- The ws.onopen handler: the socket is now OPEN; reset the reconnect
counter, send the setup envelope, and declare the status connected. -/
def onopen (s : SvcState) : SvcState × List SvcAction :=
  let s0 : SvcState := { s with ws := some true, reconnectAttempts := 0 }
  let sendActs := sendSetupMessage s0
  let (s1, stActs) := setStatus s0 .connected
  (s1, sendActs ++ stActs)

/-- The ws.onerror handler. -/
def onerror (s : SvcState) : SvcState × List SvcAction :=
  setStatus s .error

/-- The ws.onclose handler: the socket leaves the OPEN state, status
becomes disconnected, and while the attempt counter is below the ceiling
a reconnect is scheduled after 2000 ms times the incremented counter.
The handler stays attached to the socket object, so it also runs for the
close event caused by an explicit disconnect(). -/
def onclose (s : SvcState) : SvcState × List SvcAction :=
  let s0 : SvcState := { s with ws := s.ws.map (fun _ => false) }
  let (s1, acts) := setStatus s0 .disconnected
  if s1.reconnectAttempts < maxReconnectAttempts then
    let s2 : SvcState := { s1 with reconnectAttempts := s1.reconnectAttempts + 1 }
    (s2, acts ++ [.scheduleReconnect (2000 * s2.reconnectAttempts)])
  else (s1, acts)

/-- sendVideoFrame: a warned no-op unless the socket is open. -/
def sendVideoFrame (s : SvcState) (data mime : String) : SvcState × List SvcAction :=
  if s.ws = some true then (s, [.wsSend (.videoFrame mime data)])
  else (s, [])

/-- sendImageWithPrompt: a warned no-op unless the socket is open;
otherwise clear the accumulated response and send one combined turn. -/
def sendImageWithPrompt (s : SvcState) (data prompt mime : String) : SvcState × List SvcAction :=
  if s.ws = some true then
    ({ s with accumulatedResponse := "" }, [.wsSend (.imageTurn mime data prompt)])
  else (s, [])

/-- sendTextPrompt: a warned no-op unless the socket is open; otherwise
send one text turn.  The accumulated response is left untouched. -/
def sendTextPrompt (s : SvcState) (text : String) : SvcState × List SvcAction :=
  if s.ws = some true then (s, [.wsSend (.textTurn text)])
  else (s, [])

/-- disconnect(): close the socket when one is referenced and null the
reference, then transition the status to disconnected.  No flag records
that the close was intentional. -/
def disconnect (s : SvcState) : SvcState × List SvcAction :=
  let closed : SvcState × List SvcAction :=
    match s.ws with
    | some _ => ({ s with ws := none }, [SvcAction.socketClose])
    | none => (s, [])
  let (s1, stActs) := setStatus closed.1 .disconnected
  (s1, closed.2 ++ stActs)

/-- getStatus(). -/
def getStatus (s : SvcState) : ConnectionStatus := s.currentStatus

/-- Loop body of handleMessage over modelTurn.parts: each part with a
truthy text is appended (string-coerced) to the accumulated response and
forwarded at once to every message handler.  The Bool result records a
thrown TypeError (reading a property of a null part), which aborts the
rest of the handler while keeping the effects already performed. -/
def iterParts (s : SvcState) : List Json → SvcState × List SvcAction × Bool
  | [] => (s, [], false)
  | p :: rest =>
    match getProp p "text" with
    | none => (s, [], true)
    | some tOpt =>
      if truthyO tOpt then
        let t := tOpt.getD .null
        let s1 : SvcState :=
          { s with accumulatedResponse := s.accumulatedResponse ++ jsToString t }
        let r := iterParts s1 rest
        (r.1, .forwardText t :: r.2.1, r.2.2)
      else iterParts s rest

/-- The serverContent branch of handleMessage: destructure modelTurn and
turnComplete, iterate truthy parts (a truthy non-iterable value throws),
and on a truthy turnComplete parse the accumulated response and reset
the buffer. -/
def handleServerContent (s : SvcState) (sc : Json) (now : String) :
    SvcState × List SvcAction × Bool :=
  let modelTurn := jsProp sc "modelTurn"
  let turnComplete := jsProp sc "turnComplete"
  let partsOpt := optChainProp modelTurn "parts"
  let step : SvcState × List SvcAction × Bool :=
    if truthyO partsOpt then
      match jsIter (partsOpt.getD .null) with
      | some items => iterParts s items
      | none => (s, [], true)
    else (s, [], false)
  if step.2.2 then step
  else if truthyO turnComplete then
    let emitActs : List SvcAction :=
      match parseDefectReport step.1.accumulatedResponse now with
      | some report => [.emitReport report]
      | none => []
    ({ step.1 with accumulatedResponse := "" }, step.2.1 ++ emitActs, false)
  else step

/-- handleMessage after JSON.parse succeeded.  Mirrors the source block
for block: an early return on a truthy setupComplete, the serverContent
branch (whose TypeError aborts the rest while keeping prior effects),
the log-only toolCall branch, and the error branch that forwards a
rendered error string to message handlers. -/
def handleMessageJson (s : SvcState) (msg : Json) (now : String) :
    SvcState × List SvcAction :=
  match getProp msg "setupComplete" with
  | none => (s, [])
  | some scFlag =>
    if truthyO scFlag then (s, [])
    else
      let scOpt := jsProp msg "serverContent"
      let step : SvcState × List SvcAction × Bool :=
        if truthyO scOpt then handleServerContent s (scOpt.getD .null) now
        else (s, [], false)
      if step.2.2 then (step.1, step.2.1)
      else
        let errOpt := jsProp msg "error"
        if truthyO errOpt then
          let e := errOpt.getD .null
          let m := jsProp e "message"
          let errText := if truthyO m then jsToString (m.getD .null) else jsonStringify e
          (step.1, step.2.1 ++ [.forwardText (.str ("Error: " ++ errText))])
        else (step.1, step.2.1)

/-- GeminiLiveService.handleMessage on the raw frame: JSON.parse, with a
SyntaxError caught and logged (no state change, no fan-out). -/
def handleMessage (s : SvcState) (data : String) (now : String) :
    SvcState × List SvcAction :=
  match jsonParse data with
  | none => (s, [])
  | some msg => handleMessageJson s msg now

/-- Iterated unexpected closures. -/
def closeN : Nat → SvcState → SvcState
  | 0, s => s
  | n + 1, s => closeN n (onclose s).1

/-- The inbound frame carrying one text fragment of the current model
turn and no turn-complete flag. -/
def fragmentMsg (t : String) : Json :=
  .obj [("serverContent",
         .obj [("modelTurn", .obj [("parts", .arr [.obj [("text", .str t)]])])])]

/-- Deliver a sequence of fragment frames to the handler, collecting the
fan-out actions in delivery order. -/
def runFragments (s : SvcState) (now : String) : List String → SvcState × List SvcAction
  | [] => (s, [])
  | t :: ts =>
    let r1 := handleMessageJson s (fragmentMsg t) now
    let r2 := runFragments r1.1 now ts
    (r2.1, r1.2 ++ r2.2)

/-- Registration in one of the three handler registries (the source
pushes the callback onto the array). -/
def subscribeHandler (l : List Nat) (h : Nat) : List Nat := l ++ [h]

/-- The unregister capability returned at registration: the registry
field is replaced by a fresh array holding every callback other than
this one.  The array a fan-out pass is iterating is not mutated. -/
def unsubscribeHandler (l : List Nat) (h : Nat) : List Nat :=
  l.filter (fun x => !(x = h))

/-- One synchronous fan-out pass: forEach over the registry array as it
was when the pass began, pairing each callback with the event it
receives, in registration order. -/
def dispatchTo (l : List Nat) (e : Nat) : List (Nat × Nat) :=
  l.map (fun h => (h, e))

/-- Module-level singleton cell. -/
structure ModuleState where
  serviceInstance : Option SvcState
deriving DecidableEq

/-- getGeminiLiveService: create the instance on first use, return the
existing instance (ignoring the new config) afterwards. -/
def getGeminiLiveService (m : ModuleState) (config : GeminiLiveConfig) :
    SvcState × ModuleState :=
  match m.serviceInstance with
  | some s => (s, m)
  | none =>
    let s := mkGeminiLiveService config
    (s, { serviceInstance := some s })

/-- resetGeminiLiveService: disconnect the held instance and clear the
cell. -/
def resetGeminiLiveService (m : ModuleState) : ModuleState × List SvcAction :=
  match m.serviceInstance with
  | some s => ({ serviceInstance := none }, (disconnect s).2)
  | none => (m, [])

/-- Severity labels of the Defect interface. -/
def isSeverityStr (s : String) : Bool :=
  s = "Minor" || s = "Moderate" || s = "Severe"

/-- Condition categories of the DefectReport interface, with the
Unknown sentinel used by the no-device fallback. -/
def isConditionStr (s : String) : Bool :=
  s = "Excellent" || s = "Good" || s = "Fair" || s = "Poor" || s = "Damaged" || s = "Unknown"

/-- Is this field value a string? -/
def isStrVal : Option Json → Bool
  | some (.str _) => true
  | _ => false

/-- Integer condition score in 0..10 (0 meaning undetermined). -/
def isScoreVal : Option Json → Bool
  | some (.num q) => q.den = 1 && 0 ≤ q.num && q.num ≤ 10
  | _ => false

/-- Shape of one Defect record per the source interface. -/
def isDefectShape : Json → Bool
  | .obj fs =>
    isStrVal (lookupField fs "type") &&
    isStrVal (lookupField fs "location") &&
    (match lookupField fs "severity" with
     | some (.str s) => isSeverityStr s
     | _ => false) &&
    isStrVal (lookupField fs "description") &&
    (match lookupField fs "dimensions_mm" with
     | none => true
     | some (.str _) => true
     | some _ => false)
  | _ => false

/-- Shape of a DefectReport record per the source interface plus the
documented score range; the timestamp may be absent since the extractor
fills it. -/
def isDefectReportShape : Json → Bool
  | .obj fs =>
    isStrVal (lookupField fs "device_type") &&
    isScoreVal (lookupField fs "condition_score") &&
    (match lookupField fs "overall_condition" with
     | some (.str s) => isConditionStr s
     | _ => false) &&
    (match lookupField fs "defects" with
     | some (.arr items) => items.all isDefectShape
     | _ => false) &&
    (match lookupField fs "recommendations" with
     | some (.arr items) => items.all (fun j => isStrVal (some j))
     | _ => false) &&
    (match lookupField fs "timestamp" with
     | none => true
     | some (.str _) => true
     | some _ => false)
  | _ => false

/-- Is there a closing brace anywhere in the list? -/
def containsClose : List Char → Bool
  | [] => false
  | c :: cs => if c = closeBrace then true else containsClose cs

/-- Is there an opening brace followed (strictly later) by a closing
brace, i.e. a brace-delimited substring? -/
def containsBracePair : List Char → Bool
  | [] => false
  | c :: cs => if c = openBrace then containsClose cs else containsBracePair cs

/-- A configuration used for the concrete instances below. -/
def cfgA : GeminiLiveConfig :=
  { apiKey := "key-A", model := some "gemini-2.0-flash-exp", systemInstruction := none }

/-- A connected service: constructed, connect() called, socket opened. -/
def connectedSvc : SvcState :=
  (onopen (connectCall (mkGeminiLiveService cfgA)).1).1

/-- A connected service holding a stale, never-completed turn buffer:
one fragment arrived and no turn-complete signal was ever delivered. -/
def staleSvc : SvcState :=
  (runFragments connectedSvc "2026-01-01T00:00:00.000Z" ["stale"]).1

/-- The golden extractor input of the spec. -/
def c7input : String :=
  "```json\n\x7b\"device_type\":\"iPhone 12\",\"condition_score\":8,\"overall_condition\":\"Good\",\"defects\":[],\"recommendations\":[],\"timestamp\":\"\"\x7d\n```"

/-- A completed-turn text whose brace-delimited candidate is valid JSON
but has none of the DefectReport fields. -/
def c1input : String := "\x7b\"foo\":1\x7d"

/-- A completed-turn text with no brace pair at all. -/
def noBraceInput : String := "Sorry, no device is visible."

/-- A fenced code block holding JSON with a trailing comma. -/
def trailingCommaInput : String := "```json\n\x7b\"a\":1,\x7d\n```"

/-- A fixed ISO timestamp standing for the wall clock at extraction
time. -/
def ts0 : String := "2026-01-01T00:00:00.000Z"

/-- In-order concatenation of a fragment sequence. -/
def concatFragments : List String → String
  | [] => ""
  | t :: ts => t ++ concatFragments ts

/-- A freshly constructed service (reconnect counter at zero). -/
def freshSvc : SvcState := mkGeminiLiveService cfgA

/-- The brace-delimited candidate the extractor finds inside
trailingCommaInput. -/
def trailingCommaCand : List Char := ("\x7b\"a\":1,\x7d" : String).data

theorem dropWhile_head_false (p : Char → Bool) :
    ∀ (l : List Char) (x : Char) (xs : List Char), l.dropWhile p = x :: xs → p x = false := by
  intro l
  induction l with
  | nil => intro x xs h; simp [List.dropWhile] at h
  | cons c cs ih =>
    intro x xs h
    rw [List.dropWhile_cons] at h
    split at h
    · exact ih x xs h
    · cases h
      rename_i hnp
      simpa using hnp

theorem containsClose_of_mem : ∀ (l : List Char), closeBrace ∈ l → containsClose l = true := by
  intro l
  induction l with
  | nil => intro h; cases h
  | cons c cs ih =>
    intro h
    rw [containsClose]
    by_cases hc : c = closeBrace
    · simp [hc]
    · have h2 : closeBrace ∈ cs := by
        cases h with
        | head => exact absurd rfl hc
        | tail _ h3 => exact h3
      simp [hc, ih h2]

theorem mem_of_containsClose : ∀ (l : List Char), containsClose l = true → closeBrace ∈ l := by
  intro l
  induction l with
  | nil => intro h; simp [containsClose] at h
  | cons c cs ih =>
    intro h
    rw [containsClose] at h
    by_cases hc : c = closeBrace
    · rw [hc]; exact List.mem_cons_self _ _
    · rw [if_neg hc] at h
      exact List.mem_cons_of_mem c (ih h)

theorem containsClose_mono {t l : List Char} (hs : t.Sublist l)
    (h : containsClose t = true) : containsClose l = true :=
  containsClose_of_mem l (hs.subset (mem_of_containsClose t h))

theorem containsClose_of_pair :
    ∀ (l : List Char), containsBracePair l = true → containsClose l = true := by
  intro l
  induction l with
  | nil => intro h; simp [containsBracePair] at h
  | cons c cs ih =>
    intro h
    rw [containsBracePair] at h
    rw [containsClose]
    by_cases hc : c = closeBrace
    · simp [hc]
    · rw [if_neg hc]
      by_cases ho : c = openBrace
      · rw [if_pos ho] at h; exact h
      · rw [if_neg ho] at h; exact ih h

theorem containsBracePair_mono : ∀ {t l : List Char}, t.Sublist l →
    containsBracePair t = true → containsBracePair l = true := by
  intro t l hs
  induction hs with
  | slnil => intro h; exact h
  | cons a hs ih =>
    intro h
    have hl := ih h
    rw [containsBracePair]
    by_cases ha : a = openBrace
    · rw [if_pos ha]; exact containsClose_of_pair _ hl
    · rw [if_neg ha]; exact hl
  | cons₂ a hs ih =>
    intro h
    rw [containsBracePair] at h ⊢
    by_cases ha : a = openBrace
    · rw [if_pos ha] at h ⊢; exact containsClose_mono hs h
    · rw [if_neg ha] at h ⊢; exact ih h

theorem afterFirstBrace_sub : ∀ (l r : List Char),
    afterFirstBrace l = some r → r.Sublist l ∧ ∃ t, r = openBrace :: t := by
  intro l
  induction l with
  | nil => intro r h; simp [afterFirstBrace] at h
  | cons c cs ih =>
    intro r h
    rw [afterFirstBrace] at h
    split at h
    · cases h
      rename_i hc
      subst hc
      exact ⟨List.Sublist.refl _, cs, rfl⟩
    · obtain ⟨hsub, hex⟩ := ih r h
      exact ⟨hsub.cons c, hex⟩

theorem truncAtLastClose_close : ∀ (t c : List Char),
    truncAtLastClose (openBrace :: t) = some c → containsClose t = true := by
  intro t c h
  unfold truncAtLastClose at h
  by_cases he : (((openBrace :: t).reverse).dropWhile (fun x => !(x = closeBrace))).isEmpty
  · rw [if_pos he] at h; cases h
  · rw [if_neg he] at h
    cases hd : ((openBrace :: t).reverse).dropWhile (fun x => !(x = closeBrace)) with
    | nil => rw [hd] at he; simp at he
    | cons x xs =>
      have hx := dropWhile_head_false (fun y => !(y = closeBrace)) ((openBrace :: t).reverse) x xs hd
      have hxc : x = closeBrace := by
        by_cases hxx : x = closeBrace
        · exact hxx
        · simp [hxx] at hx
      have hsub : (((openBrace :: t).reverse).dropWhile (fun y => !(y = closeBrace))).Sublist
          ((openBrace :: t).reverse) := List.dropWhile_sublist _
      rw [hd] at hsub
      have hmem : x ∈ (openBrace :: t).reverse := hsub.subset (List.mem_cons_self x xs)
      rw [List.mem_reverse] at hmem
      rw [hxc] at hmem
      cases hmem with
      | tail _ h2 => exact containsClose_of_mem t h2

theorem dropWhileEnd_sub (p : Char → Bool) : ∀ (l : List Char), (dropWhileEnd p l).Sublist l := by
  intro l
  induction l with
  | nil => simp [dropWhileEnd]
  | cons c cs ih =>
    rw [dropWhileEnd]
    split
    · exact List.nil_sublist _
    · exact ih.cons₂ c

theorem trimChars_sub (l : List Char) : (trimChars l).Sublist l :=
  (dropWhileEnd_sub _ _).trans (List.dropWhile_sublist _)

theorem afterFence_sub : ∀ (l r : List Char), afterFence l = some r → r.Sublist l := by
  intro l
  induction l with
  | nil => intro r h; simp [afterFence] at h
  | cons c1 tail ih =>
    intro r h
    cases tail with
    | nil => simp [afterFence] at h
    | cons c2 tail2 =>
      cases tail2 with
      | nil => simp [afterFence] at h
      | cons c3 rest =>
        rw [afterFence] at h
        split at h
        · cases h
          exact ((List.sublist_cons_self _ _).trans (List.sublist_cons_self _ _)).cons _
        · exact (ih r h).cons c1

theorem takeUntilFence_sub : ∀ (l c : List Char), takeUntilFence l = some c → c.Sublist l := by
  intro l
  induction l with
  | nil => intro c h; simp [takeUntilFence] at h
  | cons c1 tail ih =>
    intro c h
    cases tail with
    | nil => simp [takeUntilFence] at h
    | cons c2 tail2 =>
      cases tail2 with
      | nil => simp [takeUntilFence] at h
      | cons c3 rest =>
        rw [takeUntilFence] at h
        split at h
        · cases h; exact List.nil_sublist _
        · cases ho : takeUntilFence (c2 :: c3 :: rest) with
          | none => rw [ho] at h; cases h
          | some c2' =>
            rw [ho] at h
            cases h
            exact (ih c2' ho).cons₂ c1

theorem extractFence_sub (l content : List Char) (h : extractFence l = some content) :
    content.Sublist l := by
  unfold extractFence at h
  cases ha : afterFence l with
  | none => rw [ha] at h; cases h
  | some r =>
    rw [ha] at h
    have h1 : content.Sublist ((if startsJsonTag r then r.drop 4 else r).dropWhile isJsWs) :=
      takeUntilFence_sub _ content h
    have h2 : ((if startsJsonTag r then r.drop 4 else r).dropWhile isJsWs).Sublist r := by
      refine (List.dropWhile_sublist _).trans ?_
      split
      · exact List.drop_sublist 4 r
      · exact List.Sublist.refl r
    exact (h1.trans h2).trans (afterFence_sub l r ha)

theorem cleanText_sub (text : String) : (cleanTextOf text).Sublist text.data := by
  unfold cleanTextOf
  cases hf : extractFence text.data with
  | none => exact List.Sublist.refl _
  | some content => exact (trimChars_sub content).trans (extractFence_sub text.data content hf)

theorem candidate_pair (text : String) (c : List Char)
    (hc : candidateOf text = some c) : containsBracePair text.data = true := by
  unfold candidateOf braceCandidate at hc
  cases ha : afterFirstBrace (cleanTextOf text) with
  | none => rw [ha] at hc; cases hc
  | some r =>
    rw [ha] at hc
    obtain ⟨hsub, t, ht⟩ := afterFirstBrace_sub (cleanTextOf text) r ha
    subst ht
    have hclose := truncAtLastClose_close t c hc
    have hpair : containsBracePair (openBrace :: t) = true := by
      rw [containsBracePair]
      simp [hclose]
    exact containsBracePair_mono (cleanText_sub text) (containsBracePair_mono hsub hpair)

/-- One fragment frame appends the fragment to the turn buffer and
forwards it, once, to the message handlers. -/
theorem handleFragment_step (s : SvcState) (t now : String) (h : t ≠ "") :
    handleMessageJson s (fragmentMsg t) now =
      ({ s with accumulatedResponse := s.accumulatedResponse ++ t },
       [.forwardText (.str t)]) := by
  simp [handleMessageJson, fragmentMsg, getProp, lookupField, jsProp, optChainProp,
        truthyO, truthy, jsIter, iterParts, handleServerContent, jsToString, jsToStringF, h]

/-- C1 counterexample: the completed-turn text whose brace-delimited
candidate parses as JSON but has none of the Defect Report fields is
nevertheless emitted to report subscribers (with a filled timestamp),
because the source casts the parse result without validating its
shape. -/
theorem c1_counterexample :
    candidateOf c1input = some c1input.data ∧
    jsonParseList c1input.data = some (.obj [("foo", jNat 1)]) ∧
    isDefectReportShape (.obj [("foo", jNat 1)]) = false ∧
    parseDefectReport c1input ts0 = some (.obj [("foo", jNat 1), ("timestamp", .str ts0)]) :=
  ⟨rfl, rfl, rfl, rfl⟩

/-- C1 (amended): for every completed turn whose brace-delimited
candidate text parses as JSON (necessarily an object), the Report
Extractor emits a report regardless of whether the value matches the
Defect Report shape; only a JSON syntax failure abandons the
extraction. -/
theorem c1_amended (text now : String) (c : List Char) (fs : List (String × Json))
    (hc : candidateOf text = some c) (hp : jsonParseList c = some (.obj fs)) :
    parseDefectReport text now = emitAfterTs (.obj fs) now ∧
    (parseDefectReport text now).isSome = true := by
  have h1 : parseDefectReport text now = emitAfterTs (.obj fs) now := by
    simp only [parseDefectReport, hc, hp]
  refine ⟨h1, ?_⟩
  rw [h1]
  cases ht : truthyO (lookupField fs "timestamp") <;> simp [emitAfterTs, ht]

/-- Witness for C1 (amended) at the concrete wrong-shape input. -/
theorem c1_amended_witness :
    parseDefectReport c1input ts0 = emitAfterTs (.obj [("foo", jNat 1)]) ts0 ∧
    (parseDefectReport c1input ts0).isSome = true :=
  c1_amended c1input ts0 c1input.data [("foo", jNat 1)] rfl rfl

/-- C2 counterexample: from a connected service with a zero reconnect
counter, an explicit disconnect() followed by the close event that
close() fires still schedules an automatic reconnect (2000 ms), because
no flag suppresses the onclose reconnect logic. -/
theorem c2_counterexample :
    (disconnect connectedSvc).2 = [.socketClose, .statusChanged .disconnected] ∧
    (onclose (disconnect connectedSvc).1).2 =
      [.statusChanged .disconnected, .scheduleReconnect 2000] :=
  ⟨rfl, rfl⟩

/-- C2 (amended): disconnect() closes the socket when one is referenced
and transitions the status to disconnected, but the close handler stays
attached, so the closure caused by the explicit disconnect still
schedules a reconnect whenever the attempt counter is below the
ceiling. -/
theorem c2_amended (s : SvcState) (h : s.reconnectAttempts < maxReconnectAttempts) :
    (s.ws ≠ none → SvcAction.socketClose ∈ (disconnect s).2) ∧
    (disconnect s).1.currentStatus = .disconnected ∧
    (disconnect s).1.ws = none ∧
    (onclose (disconnect s).1).2 =
      [.statusChanged .disconnected,
       .scheduleReconnect (2000 * (s.reconnectAttempts + 1))] := by
  cases hws : s.ws with
  | none =>
    refine ⟨fun hne => absurd rfl hne, ?_, ?_, ?_⟩ <;>
      simp [disconnect, setStatus, onclose, hws, h]
  | some b =>
    refine ⟨fun _ => ?_, ?_, ?_, ?_⟩ <;>
      simp [disconnect, setStatus, onclose, hws, h]

/-- Witness for C2 (amended) at the connected service. -/
theorem c2_amended_witness :
    SvcAction.socketClose ∈ (disconnect connectedSvc).2 ∧
    (disconnect connectedSvc).1.currentStatus = .disconnected ∧
    (disconnect connectedSvc).1.ws = none ∧
    (onclose (disconnect connectedSvc).1).2 =
      [.statusChanged .disconnected,
       .scheduleReconnect (2000 * (connectedSvc.reconnectAttempts + 1))] := by
  obtain ⟨a, b, c, d⟩ := c2_amended connectedSvc (by decide)
  exact ⟨a (by decide), b, c, d⟩

/-- C3 counterexample: with a stale buffer from a turn that never
completed, sendTextPrompt issues its request yet leaves the turn buffer
holding the stale text, so the buffer is not empty immediately after
the request is issued. -/
theorem c3_counterexample :
    staleSvc.accumulatedResponse = "stale" ∧
    (sendTextPrompt staleSvc "Analyze the device").2
      = [.wsSend (.textTurn "Analyze the device")] ∧
    (sendTextPrompt staleSvc "Analyze the device").1.accumulatedResponse = "stale" :=
  ⟨rfl, rfl, rfl⟩

/-- C3 (amended): on a connected service, sendImageWithPrompt clears
the turn buffer before issuing its request, but sendTextPrompt issues
its request without touching the buffer. -/
theorem c3_amended (s : SvcState) (img p t mime : String) (h : s.ws = some true) :
    (sendImageWithPrompt s img p mime).1.accumulatedResponse = "" ∧
    (sendImageWithPrompt s img p mime).2 = [.wsSend (.imageTurn mime img p)] ∧
    (sendTextPrompt s t).1.accumulatedResponse = s.accumulatedResponse ∧
    (sendTextPrompt s t).2 = [.wsSend (.textTurn t)] := by
  simp [sendImageWithPrompt, sendTextPrompt, h]

/-- Witness for C3 (amended) at the stale-buffer service. -/
theorem c3_amended_witness :
    (sendImageWithPrompt staleSvc "imgdata" "Inspect" "image/jpeg").1.accumulatedResponse = "" ∧
    (sendImageWithPrompt staleSvc "imgdata" "Inspect" "image/jpeg").2
      = [.wsSend (.imageTurn "image/jpeg" "imgdata" "Inspect")] ∧
    (sendTextPrompt staleSvc "again").1.accumulatedResponse = staleSvc.accumulatedResponse ∧
    (sendTextPrompt staleSvc "again").2 = [.wsSend (.textTurn "again")] :=
  c3_amended staleSvc "imgdata" "Inspect" "again" "image/jpeg" rfl

/-- C4: an unexpected closure below the ceiling increments the counter
and schedules a reconnect delayed by the attempt number times 2000 ms;
after three consecutive unexpected closures from a fresh counter, a
fourth closure schedules nothing and the status stays disconnected. -/
theorem c4_reconnect_policy (s s2 : SvcState)
    (h : s2.reconnectAttempts < maxReconnectAttempts) (h0 : s.reconnectAttempts = 0) :
    ((onclose s2).1.reconnectAttempts = s2.reconnectAttempts + 1 ∧
     (onclose s2).2 = [.statusChanged .disconnected,
                       .scheduleReconnect (2000 * (s2.reconnectAttempts + 1))]) ∧
    (closeN 3 s).reconnectAttempts = 3 ∧
    (onclose (closeN 3 s)).2 = [.statusChanged .disconnected] ∧
    (onclose (closeN 3 s)).1.currentStatus = .disconnected ∧
    (onclose (closeN 3 s)).1.reconnectAttempts = 3 := by
  constructor
  · constructor <;> simp [onclose, setStatus, h]
  · simp [closeN, onclose, setStatus, maxReconnectAttempts, h0]

/-- Witness for C4 at a freshly constructed service. -/
theorem c4_reconnect_policy_witness :
    ((onclose freshSvc).1.reconnectAttempts = freshSvc.reconnectAttempts + 1 ∧
     (onclose freshSvc).2 = [.statusChanged .disconnected,
        .scheduleReconnect (2000 * (freshSvc.reconnectAttempts + 1))]) ∧
    (closeN 3 freshSvc).reconnectAttempts = 3 ∧
    (onclose (closeN 3 freshSvc)).2 = [.statusChanged .disconnected] ∧
    (onclose (closeN 3 freshSvc)).1.currentStatus = .disconnected ∧
    (onclose (closeN 3 freshSvc)).1.reconnectAttempts = 3 :=
  c4_reconnect_policy freshSvc freshSvc (by decide) rfl

/-- C5: every socket open resets the reconnect counter to zero, so the
next unexpected closure schedules retry number one with the smallest
delay. -/
theorem c5_counter_reset (s : SvcState) :
    (onopen s).1.reconnectAttempts = 0 ∧
    (onclose (onopen s).1).1.reconnectAttempts = 1 ∧
    (onclose (onopen s).1).2 = [.statusChanged .disconnected, .scheduleReconnect (2000 * 1)] := by
  refine ⟨rfl, ?_, ?_⟩ <;>
    simp [onopen, onclose, setStatus, sendSetupMessage, maxReconnectAttempts]

/-- C6: delivering any sequence of non-empty text fragments with no
turn-complete signal appends exactly their in-order concatenation to
the turn buffer, and forwards each fragment, at the moment it arrives,
to the message handlers. -/
theorem c6_accumulation (s : SvcState) (now : String) (ts : List String)
    (h : ∀ t ∈ ts, t ≠ "") :
    (runFragments s now ts).1.accumulatedResponse
      = s.accumulatedResponse ++ concatFragments ts ∧
    (runFragments s now ts).2 = ts.map (fun t => SvcAction.forwardText (.str t)) := by
  induction ts generalizing s with
  | nil => simp [runFragments, concatFragments]
  | cons t ts ih =>
    have ht : t ≠ "" := h t (by simp)
    have hrest : ∀ x ∈ ts, x ≠ "" := fun x hx => h x (by simp [hx])
    have step := handleFragment_step s t now ht
    have ihs := ih { s with accumulatedResponse := s.accumulatedResponse ++ t } hrest
    refine ⟨?_, ?_⟩
    · show (runFragments (handleMessageJson s (fragmentMsg t) now).1 now ts).1.accumulatedResponse = _
      rw [step]
      rw [ihs.1]
      simp [concatFragments, String.append_assoc]
    · show (handleMessageJson s (fragmentMsg t) now).2
          ++ (runFragments (handleMessageJson s (fragmentMsg t) now).1 now ts).2 = _
      rw [step]
      simp only [List.map]
      rw [ihs.2]
      rfl

/-- Witness for C6 at a concrete fragment sequence. -/
theorem c6_accumulation_witness :
    (runFragments connectedSvc ts0 ["ab", "c"]).1.accumulatedResponse
      = connectedSvc.accumulatedResponse ++ concatFragments ["ab", "c"] ∧
    (runFragments connectedSvc ts0 ["ab", "c"]).2
      = ["ab", "c"].map (fun t => SvcAction.forwardText (.str t)) :=
  c6_accumulation connectedSvc ts0 ["ab", "c"] (by decide)

/-- C7: on the golden fenced input the extractor emits exactly the
expected report, whose defects and recommendations are empty and whose
empty timestamp is replaced by the (non-empty) current time. -/
theorem c7_golden_extraction (now : String) (h : now ≠ "") :
    parseDefectReport c7input now =
      some (.obj [("device_type", .str "iPhone 12"), ("condition_score", jNat 8),
                  ("overall_condition", .str "Good"), ("defects", .arr []),
                  ("recommendations", .arr []), ("timestamp", .str now)]) ∧
    truthy (.str now) = true := by
  refine ⟨rfl, ?_⟩
  simp [truthy, h]

/-- Witness for C7 at a fixed clock reading. -/
theorem c7_golden_extraction_witness :
    parseDefectReport c7input ts0 =
      some (.obj [("device_type", .str "iPhone 12"), ("condition_score", jNat 8),
                  ("overall_condition", .str "Good"), ("defects", .arr []),
                  ("recommendations", .arr []), ("timestamp", .str ts0)]) ∧
    truthy (.str ts0) = true :=
  c7_golden_extraction ts0 (by decide)

/-- C8: an input with no brace-delimited substring at all yields no
report, and whenever the brace-delimited candidate fails to decode as
JSON (for example a trailing comma inside a fence) the extractor
likewise emits nothing; both paths return rather than raise. -/
theorem c8_silent_decline (s now : String) (c : List Char) :
    (containsBracePair s.data = false → parseDefectReport s now = none) ∧
    (candidateOf s = some c → jsonParseList c = none → parseDefectReport s now = none) := by
  constructor
  · intro h
    cases hc : candidateOf s with
    | none => simp [parseDefectReport, hc]
    | some cand => exact absurd (candidate_pair s cand hc) (by simp [h])
  · intro hc hp
    simp [parseDefectReport, hc, hp]

/-- Witness for C8 at the brace-free prose input and the fenced
trailing-comma input. -/
theorem c8_silent_decline_witness :
    parseDefectReport noBraceInput ts0 = none ∧
    parseDefectReport trailingCommaInput ts0 = none :=
  ⟨(c8_silent_decline noBraceInput ts0 []).1 (by decide),
   (c8_silent_decline trailingCommaInput ts0 trailingCommaCand).2 rfl rfl⟩

/-- C9: a callback removed through its unregister capability receives
nothing from later dispatches; a dispatch pass uses the registry as it
stood when the pass began, so the callback still receives the event of
the pass in progress; and unregistering twice equals unregistering
once. -/
theorem c9_unsubscribe (l : List Nat) (h e e2 : Nat) (hm : h ∈ l) :
    (h, e2) ∉ dispatchTo (unsubscribeHandler l h) e2 ∧
    (h, e) ∈ dispatchTo l e ∧
    unsubscribeHandler (unsubscribeHandler l h) h = unsubscribeHandler l h := by
  refine ⟨?_, ?_, ?_⟩
  · simp [dispatchTo, unsubscribeHandler, List.mem_map, List.mem_filter]
  · exact List.mem_map.mpr ⟨h, hm, rfl⟩
  · simp [unsubscribeHandler, List.filter_filter]

/-- Witness for C9 on a two-subscriber registry. -/
theorem c9_unsubscribe_witness :
    (0, 7) ∉ dispatchTo (unsubscribeHandler [0, 1] 0) 7 ∧
    (0, 5) ∈ dispatchTo [0, 1] 5 ∧
    unsubscribeHandler (unsubscribeHandler [0, 1] 0) 0 = unsubscribeHandler [0, 1] 0 :=
  c9_unsubscribe [0, 1] 0 5 7 (by decide)

/-- C10: the accessor creates the instance from the first configuration
only; a second call with any other configuration returns the same
instance, still carrying the first resolved configuration, and leaves
the module cell unchanged; only after the reset function tears the
singleton down does a new call adopt the new configuration. -/
theorem c10_singleton (c1 c2 : GeminiLiveConfig) :
    (getGeminiLiveService { serviceInstance := none } c1).1 = mkGeminiLiveService c1 ∧
    (getGeminiLiveService (getGeminiLiveService { serviceInstance := none } c1).2 c2).1
      = mkGeminiLiveService c1 ∧
    (getGeminiLiveService (getGeminiLiveService { serviceInstance := none } c1).2 c2).2
      = (getGeminiLiveService { serviceInstance := none } c1).2 ∧
    (mkGeminiLiveService c1).config = resolveConfig c1 ∧
    (resetGeminiLiveService
        (getGeminiLiveService (getGeminiLiveService { serviceInstance := none } c1).2 c2).2).1.serviceInstance
      = none ∧
    (getGeminiLiveService
        (resetGeminiLiveService
          (getGeminiLiveService (getGeminiLiveService { serviceInstance := none } c1).2 c2).2).1
        c2).1.config
      = resolveConfig c2 :=
  ⟨rfl, rfl, rfl, rfl, rfl, rfl⟩
